import Mathlib

/-!
Shallow embedding of `src/producer/producer.py` (financial tick data
producer) over exact rational arithmetic.

Modelling conventions:

* Python floats are modelled as `ℚ`; decimal literals of the source
  (`0.0001`, `0.0002`, `0.1`, …) are the corresponding exact rationals.
* The global `random` module is modelled as an explicit generator state
  `RNG`: an infinite stream of raw rational draws plus a position.  Each
  call to a `random.*` primitive consumes exactly one raw draw and maps it
  deterministically into the primitive's output range, mirroring the
  library contract (`randint a b` lands in `[a, b]`, `uniform a b` in
  `[a, b)`, `lognormvariate` is strictly positive, `choice` picks a valid
  index).  The stream itself is an arbitrary function, so theorems
  quantifying over `RNG` cover every possible sequence of draws.
* `datetime.utcnow()` is modelled as an externally supplied clock: a
  string argument (or a stream of strings indexed by tick for loops).
* Python `round(x, 8)` is modelled as exact rounding of a rational to a
  multiple of `10⁻⁸` (`round8`), with `round` half-up tie behaviour; none
  of the proved statements depends on the tie-breaking rule except where
  strict inequalities keep them true under either rule.
* The unbounded `for` loops of `main` are modelled with explicit fuel; the
  `break` paths of the source set a `stopped` flag (the STOPPED state of
  the spec's driver state machine).
-/

/-- Generator state of the Python `random` module: an infinite stream of
raw rational draws and the index of the next draw to be consumed. -/
structure RNG where
  stream : Nat → ℚ
  pos : Nat

/-- Consume one raw draw from the generator. -/
def RNG.next (g : RNG) : ℚ × RNG :=
  (g.stream g.pos, ⟨g.stream, g.pos + 1⟩)

/-- Model of `random.gauss(0, sigma)`: the raw draw is the standard normal
variate `z`, and the library returns `0 + z * sigma`. -/
def gauss0 (sigma z : ℚ) : ℚ := z * sigma

/-- Model of `random.lognormvariate(0, 1)`: the library guarantees a
strictly positive result (it is `exp` of a normal variate); the model
realises this contract by mapping the raw draw into the positive
rationals (every positive rational is in the range, matching the
distribution's support `(0, ∞)`). -/
def lognorm0_1 (z : ℚ) : ℚ := if 0 < z then z else 1

/-- Model of `random.uniform(a, b) = a + (b - a) * random()`, where
`random()` lies in `[0, 1)`; the model realises `random()` as the
fractional part of the raw draw. -/
def pyUniform (a b z : ℚ) : ℚ := a + (b - a) * Int.fract z

/-- Model of `random.randint(a, b) = a + _randbelow(b - a + 1)`, whose
result lies in `[a, b]`; the model realises `_randbelow n` as the raw
draw's floor reduced modulo `n`. -/
def randint (a b : ℤ) (z : ℚ) : ℤ := a + ⌊z⌋ % (b - a + 1)

/-- Model of `_randbelow n` for `random.choice` on a list of length `n`:
an index in `[0, n)` derived deterministically from the raw draw. -/
def pickIndex (z : ℚ) (n : Nat) : Nat := ⌊z⌋.natAbs % n

/-- Python `round(x, 8)`: round to a multiple of `10⁻⁸`. -/
def round8 (q : ℚ) : ℚ := (round (q * 10 ^ 8) : ℤ) / 10 ^ 8

/-- The mutable state of `PriceSimulator`: symbol, current price,
volatility (set at construction), and the trade sequence counter. -/
structure PriceSimulator where
  symbol : String
  price : ℚ
  volatility : ℚ
  trade_id : ℤ

/-- The trade record returned by `PriceSimulator.next_trade` (the dict of
the source, with the wall-clock timestamp as an opaque string). -/
structure Trade where
  exchange_time : String
  symbol : String
  price : ℚ
  volume : ℚ
  trade_id : ℤ
  side : String

/-- `PriceSimulator.__init__(symbol, initial_price, volatility)`: stores
the arguments and draws `trade_id = random.randint(1000000, 9999999)`. -/
def PriceSimulator.mk_init (symbol : String) (initial_price : ℚ)
    (volatility : ℚ) (g : RNG) : PriceSimulator × RNG :=
  let (z, g1) := g.next
  (⟨symbol, initial_price, volatility, randint 1000000 9999999 z⟩, g1)

/-- `PriceSimulator.next_trade`, threading the generator state and taking
the wall-clock reading as input.  Returns the updated simulator, the
trade record, and the updated generator. -/
def next_trade (s : PriceSimulator) (g : RNG) (now : String) :
    PriceSimulator × Trade × RNG :=
  let (z, g1) := g.next
  let change := gauss0 s.volatility z
  let price1 := s.price * (1 + change)
  let price2 := max price1 0.0001
  let (zv, g2) := g1.next
  let volume := lognorm0_1 zv * 0.1
  let (zc, g3) := g2.next
  let side := if pickIndex zc 2 = 0 then "buy" else "sell"
  let tid := s.trade_id + 1
  (⟨s.symbol, price2, s.volatility, tid⟩,
   ⟨now, s.symbol, round8 price2, round8 volume, tid, side⟩,
   g3)

/-- The static starting-price table of `create_simulators`. -/
def initial_prices : List (String × ℚ) :=
  [("BTC/USD", 45000.0), ("ETH/USD", 2500.0), ("SOL/USD", 100.0),
   ("DOGE/USD", 0.08), ("XRP/USD", 0.55), ("ADA/USD", 0.45)]

/-- `create_simulators(symbols)`: one simulator per symbol, with the
table price when the symbol is present and `random.uniform(10, 1000)`
otherwise.  Python evaluates the `dict.get` default eagerly, so the
uniform draw is consumed for every symbol; the dict is modelled as an
association list in insertion order. -/
def create_simulators : List String → RNG → List (String × PriceSimulator) × RNG
  | [], g => ([], g)
  | s :: rest, g =>
      let (z, g1) := g.next
      let fallback := pyUniform 10 1000 z
      let price := (List.lookup s initial_prices).getD fallback
      let (sim, g2) := PriceSimulator.mk_init s price 0.0002 g1
      let rest2 := create_simulators rest g2
      ((s, sim) :: rest2.1, rest2.2)

/-- Repeated calls of `next_trade` on a single simulator: state after `k`
calls (the clock stream supplies the wall-clock reading of each call). -/
def simRun (clock : Nat → String) (s : PriceSimulator) (g : RNG) :
    Nat → PriceSimulator × RNG
  | 0 => (s, g)
  | k + 1 =>
      let p := simRun clock s g k
      let r := next_trade p.1 p.2 (clock k)
      (r.1, r.2.2)

/-- The trade record emitted by the `(k+1)`-st call of `next_trade` on a
single simulator. -/
def simTradeAt (clock : Nat → String) (s : PriceSimulator) (g : RNG)
    (k : Nat) : Trade :=
  let p := simRun clock s g k
  (next_trade p.1 p.2 (clock k)).2.1

/-- State threaded through `generate_trades`: the simulators (in
insertion order), the generator, and the external clock with the index of
the next reading. -/
structure GenState where
  sims : List (String × PriceSimulator)
  rng : RNG
  clock : Nat → String
  tick : Nat

/-- Placeholder record for the empty-symbol-list corner, where
`random.choice([])` in the source would raise `IndexError`; the claims
are stated away from this corner. -/
def emptyTrade : Trade := ⟨"", "", 0, 0, 0, ""⟩

/-- One step of the `generate_trades` generator: pick a symbol uniformly
at random (`random.choice(symbols)`), call its simulator's `next_trade`,
and store back the mutated simulator. -/
def genStep (st : GenState) : Trade × GenState :=
  let (z, g1) := st.rng.next
  let idx := pickIndex z st.sims.length
  match st.sims.get? idx with
  | some (sym, sim) =>
      let r := next_trade sim g1 (st.clock st.tick)
      (r.2.1, ⟨st.sims.set idx (sym, r.1), r.2.2, st.clock, st.tick + 1⟩)
  | none => (emptyTrade, ⟨st.sims, g1, st.clock, st.tick + 1⟩)

/-- The dry-run loop of `main`: `for i, trade in enumerate(trade_gen)`,
print the trade, and `break` once `args.count and i >= args.count - 1`.
Fuel bounds the number of iterations of the unbounded source loop; the
boolean records whether the loop reached the `break` (STOPPED). -/
def dryRunLoop (count : ℤ) : Nat → Nat → GenState → List Trade × Bool × GenState
  | 0, _, st => ([], false, st)
  | fuel + 1, i, st =>
      let r := genStep st
      if count ≠ 0 ∧ (i : ℤ) ≥ count - 1 then ([r.1], true, r.2)
      else
        let rec2 := dryRunLoop count fuel (i + 1) r.2
        (r.1 :: rec2.1, rec2.2.1, rec2.2.2)

/-- The Kafka send loop of `main`: send the trade, increment `sent`, and
`break` once `args.count and sent >= args.count`. -/
def kafkaLoop (count : ℤ) : Nat → Nat → GenState → Nat × Bool × GenState
  | 0, sent, st => (sent, false, st)
  | fuel + 1, sent, st =>
      let st1 := (genStep st).2
      let sent1 := sent + 1
      if count ≠ 0 ∧ (sent1 : ℤ) ≥ count then (sent1, true, st1)
      else kafkaLoop count fuel sent1 st1

/-- Outcome of the `KafkaProducer(...)` construction, the only failure
point the source distinguishes (caught `KafkaError`). -/
inductive ConnectResult where
  | ok : ConnectResult
  | failed : ConnectResult

/-- Observable outcome of one run of `main`: the records printed by the
dry-run path, the number of records handed to the network sink, whether
the loop reached its `break` (STOPPED), whether the run ended on the
connection-failure path, and the final generator/simulator state. -/
structure RunOutcome where
  printed : List Trade
  sinkSent : Nat
  stopped : Bool
  connectFailed : Bool
  final : GenState

/-- `main` after argument parsing: build the simulators, then either run
the dry-run print loop, or connect to Kafka — returning immediately with
an error report when the connection fails — and run the send loop. -/
def pyMain (symbols : List String) (g : RNG) (clock : Nat → String)
    (count : ℤ) (dryRun : Bool) (connect : ConnectResult) (fuel : Nat) :
    RunOutcome :=
  let cs := create_simulators symbols g
  let st : GenState := ⟨cs.1, cs.2, clock, 0⟩
  if dryRun then
    let r := dryRunLoop count fuel 0 st
    ⟨r.1, 0, r.2.1, false, r.2.2⟩
  else
    match connect with
    | .failed => ⟨[], 0, true, true, st⟩
    | .ok =>
        let r := kafkaLoop count fuel 0 st
        ⟨[], r.1, r.2.1, false, r.2.2⟩

/-! ### Helper lemmas -/

/-- Rounding to eight decimals is monotone. -/
lemma round8_le_round8 {p q : ℚ} (h : p ≤ q) : round8 p ≤ round8 q := by
  have h2 : round (p * 10 ^ 8) ≤ round (q * 10 ^ 8) := by
    rw [round_eq, round_eq]
    exact Int.floor_mono (by nlinarith)
  unfold round8
  gcongr

/-- Rounding fixes zero. -/
lemma round8_zero : round8 0 = 0 := by
  unfold round8
  norm_num

/-- Rounding fixes the price floor `0.0001 = 10⁻⁴`. -/
lemma round8_floor_value : round8 0.0001 = 0.0001 := by
  unfold round8
  have h : (0.0001 : ℚ) * 10 ^ 8 = ((10000 : ℤ) : ℚ) := by norm_num
  rw [h, round_intCast]
  norm_num

/-- Any rational at least half of `10⁻⁸` rounds to a positive value. -/
lemma round8_pos {q : ℚ} (h : 1 / (2 * 10 ^ 8) ≤ q) : 0 < round8 q := by
  have h1 : (1 : ℤ) ≤ round (q * 10 ^ 8) := by
    rw [round_eq]
    refine Int.le_floor.mpr ?_
    push_cast
    nlinarith
  unfold round8
  have h2 : (0 : ℚ) < ((round (q * 10 ^ 8) : ℤ) : ℚ) := by exact_mod_cast h1.trans_lt' (by norm_num)
  positivity

/-- Nonnegative rationals round to nonnegative values. -/
lemma round8_nonneg {q : ℚ} (h : 0 ≤ q) : 0 ≤ round8 q := by
  have := round8_le_round8 h
  rw [round8_zero] at this
  exact this

/-- The model of `lognormvariate` honours the library's contract: its
result is strictly positive. -/
lemma lognorm0_1_pos (z : ℚ) : 0 < lognorm0_1 z := by
  unfold lognorm0_1
  split
  · assumption
  · norm_num

/-- The internal price is clamped to at least `0.0001` by every call. -/
lemma next_trade_price_ge_floor (s : PriceSimulator) (g : RNG) (now : String) :
    (0.0001 : ℚ) ≤ (next_trade s g now).1.price :=
  le_max_right _ _

/-- The result of the model of `randint a b` lies in `[a, b]`. -/
lemma randint_mem (a b : ℤ) (z : ℚ) (h : 0 < b - a + 1) :
    a ≤ randint a b z ∧ randint a b z ≤ b := by
  unfold randint
  have h0 := Int.emod_nonneg ⌊z⌋ (by omega : b - a + 1 ≠ 0)
  have h1 := Int.emod_lt_of_pos ⌊z⌋ h
  omega

/-- The result of the model of `uniform 10 1000` lies in `[10, 1000]`. -/
lemma pyUniform_mem (z : ℚ) :
    10 ≤ pyUniform 10 1000 z ∧ pyUniform 10 1000 z ≤ 1000 := by
  unfold pyUniform
  have h0 := Int.fract_nonneg (α := ℚ) z
  have h1 := Int.fract_lt_one (α := ℚ) z
  constructor <;> nlinarith

/-! ### Claims -/

/-- C1 (amended): after every call to `next_trade`, on any simulator
state, the internal price is at least the fixed floor `1e-4` (equality is
attainable, so "strictly greater" fails), and the `price` field of the
returned trade record is strictly positive. -/
theorem c1_price_floor_and_record_pos (s : PriceSimulator) (g : RNG)
    (now : String) :
    (0.0001 : ℚ) ≤ (next_trade s g now).1.price ∧
      0 < (next_trade s g now).2.1.price := by
  refine ⟨next_trade_price_ge_floor s g now, ?_⟩
  have h1 : (next_trade s g now).2.1.price
      = round8 ((next_trade s g now).1.price) := rfl
  have h2 := round8_le_round8 (next_trade_price_ge_floor s g now)
  rw [round8_floor_value] at h2
  rw [h1]
  exact lt_of_lt_of_le (by norm_num) h2

/-- C1 counterexample: from internal price `0.0002` with a Gaussian draw
of `-1` (volatility `1`, change `-100%`), the clamp lands on exactly
`0.0001`, so the internal price after the call is not strictly greater
than the floor `1e-4`. -/
theorem c1_counterexample :
    ¬ ((0.0001 : ℚ) <
        (next_trade ⟨"BTC/USD", 0.0002, 1, 0⟩ ⟨fun _ => -1, 0⟩ "t").1.price) := by
  have h : (next_trade ⟨"BTC/USD", 0.0002, 1, 0⟩ ⟨fun _ => -1, 0⟩ "t").1.price
      = 0.0001 := by
    show max ((0.0002 : ℚ) * (1 + gauss0 1 (-1))) 0.0001 = 0.0001
    rw [show (0.0002 : ℚ) * (1 + gauss0 1 (-1)) = 0 by norm_num [gauss0]]
    rw [max_eq_right (by norm_num : (0 : ℚ) ≤ 0.0001)]
  rw [h]
  exact lt_irrefl _

/-- C3 (amended): the `volume` field of every returned trade record is
nonnegative, and it is strictly positive whenever the log-normal draw
scaled by `0.1` exceeds half of `10⁻⁸`; a smaller draw rounds to a volume
of exactly `0`, so strict positivity does not hold unconditionally. -/
theorem c3_volume_nonneg_and_pos (s : PriceSimulator) (g : RNG)
    (now : String) :
    0 ≤ (next_trade s g now).2.1.volume ∧
      (1 / (2 * 10 ^ 8) < lognorm0_1 (g.stream (g.pos + 1)) * 0.1 →
        0 < (next_trade s g now).2.1.volume) := by
  have hv : (next_trade s g now).2.1.volume
      = round8 (lognorm0_1 (g.stream (g.pos + 1)) * 0.1) := rfl
  constructor
  · rw [hv]
    exact round8_nonneg
      (le_of_lt (mul_pos (lognorm0_1_pos _) (by norm_num)))
  · intro h
    rw [hv]
    exact round8_pos (le_of_lt h)

/-- Witness for the amended C3: with a raw draw of `1`, the scaled
log-normal value `0.1` is above the half-ulp threshold and the emitted
volume is strictly positive. -/
theorem c3_volume_witness :
    (1 : ℚ) / (2 * 10 ^ 8) < lognorm0_1 1 * 0.1 ∧
      0 < (next_trade ⟨"BTC/USD", 45000, 0.0002, 0⟩
            ⟨fun _ => 1, 0⟩ "t").2.1.volume := by
  have h : (1 : ℚ) / (2 * 10 ^ 8) < lognorm0_1 1 * 0.1 := by
    unfold lognorm0_1
    norm_num
  exact ⟨h,
    (c3_volume_nonneg_and_pos ⟨"BTC/USD", 45000, 0.0002, 0⟩
      ⟨fun _ => 1, 0⟩ "t").2 h⟩

/-- C3 counterexample: a log-normal draw of `10⁻¹²` (inside the
distribution's support `(0, ∞)`) gives scaled volume `10⁻¹³`, which
rounds to exactly `0`, so the volume field is not strictly positive. -/
theorem c3_counterexample :
    ¬ (0 < (next_trade ⟨"BTC/USD", 45000, 0.0002, 0⟩
            ⟨fun _ => 0.000000000001, 0⟩ "t").2.1.volume) := by
  have h : (next_trade ⟨"BTC/USD", 45000, 0.0002, 0⟩
      ⟨fun _ => 0.000000000001, 0⟩ "t").2.1.volume = 0 := by
    show round8 (lognorm0_1 0.000000000001 * 0.1) = 0
    rw [show lognorm0_1 (0.000000000001 : ℚ) = 0.000000000001 by
      unfold lognorm0_1; rw [if_pos (by norm_num)]]
    unfold round8
    norm_num [round_eq]
  rw [h]
  exact lt_irrefl 0

/-- C6: the price and volume fields of every returned trade record are
integer multiples of `10⁻⁸`, i.e. carry at most eight digits after the
decimal point. -/
theorem c6_eight_decimal_places (s : PriceSimulator) (g : RNG)
    (now : String) :
    (∃ a : ℤ, (next_trade s g now).2.1.price = (a : ℚ) / 10 ^ 8) ∧
      ∃ b : ℤ, (next_trade s g now).2.1.volume = (b : ℚ) / 10 ^ 8 :=
  ⟨⟨round ((next_trade s g now).1.price * 10 ^ 8), rfl⟩,
   ⟨round (lognorm0_1 (g.stream (g.pos + 1)) * 0.1 * 10 ^ 8), rfl⟩⟩

/-- C9: rounding does not feed back into the price state: the simulator
stores the unrounded clamped price, the record's price field is the
rounded copy of that stored price, and the two can differ (witnessed by
an explicit input). -/
theorem c9_rounding_not_fed_back (s : PriceSimulator) (g : RNG)
    (now : String) :
    (next_trade s g now).1.price
        = max (s.price * (1 + gauss0 s.volatility (g.stream g.pos))) 0.0001 ∧
      (next_trade s g now).2.1.price = round8 ((next_trade s g now).1.price) ∧
      ∃ (s2 : PriceSimulator) (g2 : RNG) (now2 : String),
        (next_trade s2 g2 now2).1.price ≠ (next_trade s2 g2 now2).2.1.price := by
  refine ⟨rfl, rfl, ⟨"X", 1, 0.000000001, 0⟩, ⟨fun _ => 1, 0⟩, "t", ?_⟩
  show max ((1 : ℚ) * (1 + gauss0 0.000000001 1)) 0.0001
      ≠ round8 (max ((1 : ℚ) * (1 + gauss0 0.000000001 1)) 0.0001)
  rw [show (1 : ℚ) * (1 + gauss0 0.000000001 1) = 1.000000001 by
    norm_num [gauss0]]
  rw [max_eq_left (by norm_num : (0.0001 : ℚ) ≤ 1.000000001)]
  unfold round8
  norm_num [round_eq]

/-- C10: `next_trade` is total and needs no precondition on the
construction arguments: for any symbol, any initial price (zero and
negative included), any volatility, and any generator state, the clamp
makes the internal price at least `0.0001` after the first call. -/
theorem c10_total_price_floor (symbol : String) (p v : ℚ) (g : RNG)
    (now : String) :
    (0.0001 : ℚ) ≤
      (next_trade (PriceSimulator.mk_init symbol p v g).1
        (PriceSimulator.mk_init symbol p v g).2 now).1.price :=
  next_trade_price_ge_floor _ _ _

/-- Each call to `next_trade` increments the stored counter by one and
stamps the record with the post-increment value. -/
lemma next_trade_id_step (s : PriceSimulator) (g : RNG) (now : String) :
    (next_trade s g now).1.trade_id = s.trade_id + 1 ∧
      (next_trade s g now).2.1.trade_id = s.trade_id + 1 :=
  ⟨rfl, rfl⟩

/-- After `k` calls the stored counter has advanced by exactly `k`. -/
lemma simRun_trade_id (clock : Nat → String) (s : PriceSimulator) (g : RNG) :
    ∀ k : Nat, (simRun clock s g k).1.trade_id = s.trade_id + k := by
  intro k
  induction k with
  | zero => simp [simRun]
  | succ k ih =>
      show (next_trade (simRun clock s g k).1 (simRun clock s g k).2
          (clock k)).1.trade_id = _
      rw [(next_trade_id_step _ _ _).1, ih]
      push_cast
      ring

/-- The trade emitted by the `(k+1)`-st call carries id `start + k + 1`. -/
lemma simTradeAt_trade_id (clock : Nat → String) (s : PriceSimulator)
    (g : RNG) (k : Nat) :
    (simTradeAt clock s g k).trade_id = s.trade_id + k + 1 := by
  show (next_trade (simRun clock s g k).1 (simRun clock s g k).2
      (clock k)).2.1.trade_id = _
  rw [(next_trade_id_step _ _ _).2, simRun_trade_id]

/-- C2: the trade counter is initialised by the constructor to a value in
`[1000000, 9999999]`; every call to `next_trade` increments it by exactly
one and uses the post-increment value as the record's trade id; hence
across successive calls on one simulator the emitted ids increase by
exactly one. -/
theorem c2_trade_id_sequence (symbol : String) (p v : ℚ) (g : RNG)
    (clock : Nat → String) :
    (1000000 ≤ (PriceSimulator.mk_init symbol p v g).1.trade_id ∧
        (PriceSimulator.mk_init symbol p v g).1.trade_id ≤ 9999999) ∧
      (∀ (s : PriceSimulator) (h : RNG) (now : String),
        (next_trade s h now).1.trade_id = s.trade_id + 1 ∧
          (next_trade s h now).2.1.trade_id = (next_trade s h now).1.trade_id) ∧
      (∀ k : Nat,
        (simTradeAt clock (PriceSimulator.mk_init symbol p v g).1
            (PriceSimulator.mk_init symbol p v g).2 k).trade_id
          = (PriceSimulator.mk_init symbol p v g).1.trade_id + k + 1) ∧
      ∀ k : Nat,
        (simTradeAt clock (PriceSimulator.mk_init symbol p v g).1
            (PriceSimulator.mk_init symbol p v g).2 (k + 1)).trade_id
          = (simTradeAt clock (PriceSimulator.mk_init symbol p v g).1
              (PriceSimulator.mk_init symbol p v g).2 k).trade_id + 1 := by
  have hmem := randint_mem 1000000 9999999 (g.stream g.pos) (by norm_num)
  refine ⟨⟨hmem.1, hmem.2⟩, fun s h now => ⟨rfl, rfl⟩,
    fun k => simTradeAt_trade_id _ _ _ k, fun k => ?_⟩
  rw [simTradeAt_trade_id, simTradeAt_trade_id]
  push_cast
  ring

/-- The simulator-state evolution does not depend on the wall clock: the
clock reading enters only the record's timestamp field. -/
lemma simRun_clock_irrelevant (s : PriceSimulator) (g : RNG)
    (clock1 clock2 : Nat → String) :
    ∀ k, simRun clock1 s g k = simRun clock2 s g k := by
  intro k
  induction k with
  | zero => rfl
  | succ k ih =>
      simp only [simRun, ih]
      exact Prod.ext rfl rfl

/-- C5: two runs with the same raw-draw stream and position (a fixed
seed), the same symbol, and the same initial price and volatility produce
identical sequences of (price, volume, side) triples across all calls:
trade generation is a deterministic function of the simulator state and
the generator state. -/
theorem c5_deterministic (symbol : String) (p v : ℚ) (g1 g2 : RNG)
    (clock1 clock2 : Nat → String)
    (hstream : ∀ i, g1.stream i = g2.stream i) (hpos : g1.pos = g2.pos) :
    ∀ k : Nat,
      (simTradeAt clock1 (PriceSimulator.mk_init symbol p v g1).1
          (PriceSimulator.mk_init symbol p v g1).2 k).price
        = (simTradeAt clock2 (PriceSimulator.mk_init symbol p v g2).1
            (PriceSimulator.mk_init symbol p v g2).2 k).price ∧
      (simTradeAt clock1 (PriceSimulator.mk_init symbol p v g1).1
          (PriceSimulator.mk_init symbol p v g1).2 k).volume
        = (simTradeAt clock2 (PriceSimulator.mk_init symbol p v g2).1
            (PriceSimulator.mk_init symbol p v g2).2 k).volume ∧
      (simTradeAt clock1 (PriceSimulator.mk_init symbol p v g1).1
          (PriceSimulator.mk_init symbol p v g1).2 k).side
        = (simTradeAt clock2 (PriceSimulator.mk_init symbol p v g2).1
            (PriceSimulator.mk_init symbol p v g2).2 k).side := by
  have hg : g1 = g2 := by
    obtain ⟨s1, p1⟩ := g1
    obtain ⟨s2, p2⟩ := g2
    have hs : s1 = s2 := funext hstream
    rw [hs]
    exact congrArg (RNG.mk s2) hpos
  subst hg
  intro k
  have h := simRun_clock_irrelevant (PriceSimulator.mk_init symbol p v g1).1
      (PriceSimulator.mk_init symbol p v g1).2 clock1 clock2 k
  refine ⟨?_, ?_, ?_⟩ <;> simp only [simTradeAt] <;> rw [h] <;> rfl

/-- Witness for C5 at a concrete seed: the constant-zero stream, symbol
BTC/USD, initial price 45000, volatility 0.0002, first trade. -/
theorem c5_witness :
    (simTradeAt (fun _ => "a")
        (PriceSimulator.mk_init "BTC/USD" 45000 0.0002 ⟨fun _ => 0, 0⟩).1
        (PriceSimulator.mk_init "BTC/USD" 45000 0.0002 ⟨fun _ => 0, 0⟩).2 0).price
      = (simTradeAt (fun _ => "b")
          (PriceSimulator.mk_init "BTC/USD" 45000 0.0002 ⟨fun _ => 0, 0⟩).1
          (PriceSimulator.mk_init "BTC/USD" 45000 0.0002 ⟨fun _ => 0, 0⟩).2 0).price ∧
    (simTradeAt (fun _ => "a")
        (PriceSimulator.mk_init "BTC/USD" 45000 0.0002 ⟨fun _ => 0, 0⟩).1
        (PriceSimulator.mk_init "BTC/USD" 45000 0.0002 ⟨fun _ => 0, 0⟩).2 0).volume
      = (simTradeAt (fun _ => "b")
          (PriceSimulator.mk_init "BTC/USD" 45000 0.0002 ⟨fun _ => 0, 0⟩).1
          (PriceSimulator.mk_init "BTC/USD" 45000 0.0002 ⟨fun _ => 0, 0⟩).2 0).volume ∧
    (simTradeAt (fun _ => "a")
        (PriceSimulator.mk_init "BTC/USD" 45000 0.0002 ⟨fun _ => 0, 0⟩).1
        (PriceSimulator.mk_init "BTC/USD" 45000 0.0002 ⟨fun _ => 0, 0⟩).2 0).side
      = (simTradeAt (fun _ => "b")
          (PriceSimulator.mk_init "BTC/USD" 45000 0.0002 ⟨fun _ => 0, 0⟩).1
          (PriceSimulator.mk_init "BTC/USD" 45000 0.0002 ⟨fun _ => 0, 0⟩).2 0).side :=
  c5_deterministic "BTC/USD" 45000 0.0002 ⟨fun _ => 0, 0⟩ ⟨fun _ => 0, 0⟩
    (fun _ => "a") (fun _ => "b") (fun _ => rfl) rfl 0

/-- Unfolding of `create_simulators` on a nonempty symbol list: the head
symbol consumes the uniform draw (evaluated eagerly as the `dict.get`
default) and the constructor's `randint` draw, then the tail is processed
with the advanced generator. -/
lemma create_simulators_cons (s : String) (rest : List String) (g : RNG) :
    create_simulators (s :: rest) g =
      ((s, ⟨s, (List.lookup s initial_prices).getD
            (pyUniform 10 1000 (g.stream g.pos)), 0.0002,
          randint 1000000 9999999 (g.stream (g.pos + 1))⟩)
          :: (create_simulators rest ⟨g.stream, g.pos + 2⟩).1,
        (create_simulators rest ⟨g.stream, g.pos + 2⟩).2) := rfl

/-- C7: for every position of the configured symbol list,
`create_simulators` builds that symbol's simulator with the static
table's price when the symbol is in the table, and with a uniform price
in `[10, 1000]` when it is absent. -/
theorem c7_create_simulators_prices :
    ∀ (symbols : List String) (g : RNG) (j : Nat) (s : String),
      symbols[j]? = some s →
      ∃ sim : PriceSimulator,
        (create_simulators symbols g).1[j]? = some (s, sim) ∧
        (∀ p : ℚ, List.lookup s initial_prices = some p → sim.price = p) ∧
        (List.lookup s initial_prices = none →
          10 ≤ sim.price ∧ sim.price ≤ 1000) := by
  intro symbols
  induction symbols with
  | nil => intro g j s hj; simp at hj
  | cons hd tl ih =>
      intro g j s hj
      cases j with
      | zero =>
          rw [List.getElem?_cons_zero] at hj
          injection hj with hj
          subst hj
          rw [create_simulators_cons]
          refine ⟨_, List.getElem?_cons_zero, ?_, ?_⟩
          · intro p hp
            show ((List.lookup hd initial_prices).getD _) = p
            rw [hp]
            rfl
          · intro hn
            show 10 ≤ ((List.lookup hd initial_prices).getD
                (pyUniform 10 1000 (g.stream g.pos))) ∧
              ((List.lookup hd initial_prices).getD
                (pyUniform 10 1000 (g.stream g.pos))) ≤ 1000
            rw [hn]
            exact pyUniform_mem (g.stream g.pos)
      | succ j =>
          rw [List.getElem?_cons_succ] at hj
          rw [create_simulators_cons]
          rw [List.getElem?_cons_succ]
          exact ih ⟨g.stream, g.pos + 2⟩ j s hj

/-- Witness for C7: with the zero stream, BTC/USD (in the table) receives
the table price 45000 and FOO/USD (absent) a price in `[10, 1000]`. -/
theorem c7_witness :
    (∃ sim : PriceSimulator,
        (create_simulators ["BTC/USD", "FOO/USD"] ⟨fun _ => 0, 0⟩).1[0]?
            = some ("BTC/USD", sim) ∧
        (∀ p : ℚ, List.lookup "BTC/USD" initial_prices = some p →
            sim.price = p) ∧
        (List.lookup "BTC/USD" initial_prices = none →
          10 ≤ sim.price ∧ sim.price ≤ 1000)) ∧
    ∃ sim : PriceSimulator,
        (create_simulators ["BTC/USD", "FOO/USD"] ⟨fun _ => 0, 0⟩).1[1]?
            = some ("FOO/USD", sim) ∧
        (∀ p : ℚ, List.lookup "FOO/USD" initial_prices = some p →
            sim.price = p) ∧
        (List.lookup "FOO/USD" initial_prices = none →
          10 ≤ sim.price ∧ sim.price ≤ 1000) :=
  ⟨c7_create_simulators_prices ["BTC/USD", "FOO/USD"] ⟨fun _ => 0, 0⟩ 0
      "BTC/USD" rfl,
    c7_create_simulators_prices ["BTC/USD", "FOO/USD"] ⟨fun _ => 0, 0⟩ 1
      "FOO/USD" rfl⟩

/-- With `count = 0` the count check `args.count and i >= args.count - 1`
is never true: the dry-run loop prints one record per iteration and never
reaches the break. -/
lemma dryRunLoop_count_zero :
    ∀ (fuel i : Nat) (st : GenState),
      (dryRunLoop 0 fuel i st).1.length = fuel ∧
        (dryRunLoop 0 fuel i st).2.1 = false := by
  intro fuel
  induction fuel with
  | zero => intro i st; simp [dryRunLoop]
  | succ n ih =>
      intro i st
      have h := ih (i + 1) (genStep st).2
      simp only [dryRunLoop]
      rw [if_neg (by simp)]
      simp [List.length_cons, h.1, h.2]

/-- With a positive `count` and enough fuel, the dry-run loop starting at
index `i < count` prints exactly `count - i` records and reaches the
break. -/
lemma dryRunLoop_count_pos (N : ℤ) (hN : 0 < N) :
    ∀ (fuel i : Nat) (st : GenState), (i : ℤ) < N → N ≤ (i : ℤ) + fuel →
      (dryRunLoop N fuel i st).1.length = (N - i).toNat ∧
        (dryRunLoop N fuel i st).2.1 = true := by
  intro fuel
  induction fuel with
  | zero =>
      intro i st h1 h2
      exfalso
      push_cast at h2
      omega
  | succ n ih =>
      intro i st h1 h2
      by_cases hc : (i : ℤ) ≥ N - 1
      · have hcond : N ≠ 0 ∧ (i : ℤ) ≥ N - 1 := ⟨by omega, hc⟩
        simp only [dryRunLoop]
        rw [if_pos hcond]
        refine ⟨?_, rfl⟩
        simp only [List.length_singleton]
        omega
      · have hcond : ¬(N ≠ 0 ∧ (i : ℤ) ≥ N - 1) := fun h => hc h.2
        simp only [dryRunLoop]
        rw [if_neg hcond]
        have h := ih (i + 1) (genStep st).2 (by push_cast; omega)
          (by push_cast at h2 ⊢; omega)
        refine ⟨?_, h.2⟩
        simp only [List.length_cons, h.1]
        push_cast
        omega

/-- C4: in dry-run mode, for any configured count `N > 0` the driver loop
prints exactly `N` records and reaches the break (STOPPED) while handing
nothing to the network sink, and for count `= 0` the count check never
terminates the loop: every iteration the fuel allows prints a record and
the break is never reached. -/
theorem c4_dry_run_counts (symbols : List String) (g : RNG)
    (clock : Nat → String) (conn : ConnectResult) (N : ℤ) (fuel : Nat)
    (hN : 0 < N) (hfuel : N ≤ (fuel : ℤ)) :
    ((pyMain symbols g clock N true conn fuel).printed.length = N.toNat ∧
      (pyMain symbols g clock N true conn fuel).stopped = true ∧
      (pyMain symbols g clock N true conn fuel).sinkSent = 0) ∧
    ((pyMain symbols g clock 0 true conn fuel).printed.length = fuel ∧
      (pyMain symbols g clock 0 true conn fuel).stopped = false) := by
  have hzero := dryRunLoop_count_zero fuel 0
    ⟨(create_simulators symbols g).1, (create_simulators symbols g).2, clock, 0⟩
  have hpos := dryRunLoop_count_pos N hN fuel 0
    ⟨(create_simulators symbols g).1, (create_simulators symbols g).2, clock, 0⟩
    (by exact_mod_cast hN) (by push_cast; omega)
  refine ⟨⟨?_, ?_, rfl⟩, ?_, ?_⟩
  · show (dryRunLoop N fuel 0
        ⟨(create_simulators symbols g).1, (create_simulators symbols g).2,
          clock, 0⟩).1.length = N.toNat
    rw [hpos.1]
    omega
  · exact hpos.2
  · exact hzero.1
  · exact hzero.2

/-- Witness for C4 at count 2 with fuel 3 and a single symbol. -/
theorem c4_witness :
    ((pyMain ["BTC/USD"] ⟨fun _ => 0, 0⟩ (fun _ => "t") 2 true .ok 3).printed.length
          = (2 : ℤ).toNat ∧
      (pyMain ["BTC/USD"] ⟨fun _ => 0, 0⟩ (fun _ => "t") 2 true .ok 3).stopped = true ∧
      (pyMain ["BTC/USD"] ⟨fun _ => 0, 0⟩ (fun _ => "t") 2 true .ok 3).sinkSent = 0) ∧
    ((pyMain ["BTC/USD"] ⟨fun _ => 0, 0⟩ (fun _ => "t") 0 true .ok 3).printed.length = 3 ∧
      (pyMain ["BTC/USD"] ⟨fun _ => 0, 0⟩ (fun _ => "t") 0 true .ok 3).stopped = false) :=
  c4_dry_run_counts ["BTC/USD"] ⟨fun _ => 0, 0⟩ (fun _ => "t") .ok 2 3
    (by norm_num) (by norm_num)

/-- C8: when the Kafka connection fails at startup, `main` reports the
failure and returns before the send loop: no record is printed, nothing
is handed to the sink, and the simulators and generator are exactly as
`create_simulators` left them — no `next_trade` was invoked. -/
theorem c8_connect_failure (symbols : List String) (g : RNG)
    (clock : Nat → String) (count : ℤ) (fuel : Nat) :
    (pyMain symbols g clock count false .failed fuel).connectFailed = true ∧
      (pyMain symbols g clock count false .failed fuel).printed = [] ∧
      (pyMain symbols g clock count false .failed fuel).sinkSent = 0 ∧
      (pyMain symbols g clock count false .failed fuel).final.sims
          = (create_simulators symbols g).1 ∧
      (pyMain symbols g clock count false .failed fuel).final.rng
          = (create_simulators symbols g).2 :=
  ⟨rfl, rfl, rfl, rfl, rfl⟩
